import Mathlib

/-!
Verification of the order-lifecycle core of the Irini food-ordering console.

Timestamps are modelled as integers (milliseconds since the epoch, UTC).
Money amounts are modelled as rationals.

Sources embedded here:
* `src/services/supabaseClient.ts` — the store-level services
  (`ordersService`, `driversService`).
* `src/unnamed/part_000` — the `AdminDashboard` component: analytics
  aggregation (`stats`), new-order detection, status-update buttons,
  the print action and the receipt preview.
The OrdersContext / DriversContext provider layer lives in `index.tsx`,
which is not part of `src/`; the definitions whose doc comment starts
with "Modelled from the spec" embed that missing layer from the design
document.
-/

namespace Irini

/-- Order lifecycle status (`DbOrder.status`, supabaseClient.ts line 422). -/
inductive OrderStatus
  | pending
  | preparing
  | ready
  | delivery
  | completed
  | cancelled
deriving DecidableEq, Repr

/-- Payment method (`DbOrder.payment_method`, supabaseClient.ts line 423). -/
inductive PaymentMethod
  | ideal
  | card
  | bancontact
  | cash
deriving DecidableEq, Repr

/-- Payment status (`DbOrder.payment_status`, supabaseClient.ts line 424). -/
inductive PaymentStatus
  | unpaid
  | pending
  | paid
  | failed
  | refunded
deriving DecidableEq, Repr

/-- Delivery type (`DbOrder.delivery_type`, supabaseClient.ts line 428). -/
inductive DeliveryType
  | delivery
  | pickup
deriving DecidableEq, Repr

/-- Driver status (`DbDriver.status`, supabaseClient.ts line 816). -/
inductive DriverStatus
  | available
  | busy
  | offline
deriving DecidableEq, Repr

/-- A sold line item (`OrderItem` of supabaseClient.ts lines 391-400;
the dashboard accesses it as `{id, name, price, quantity}`). -/
structure OrderItem where
  id : Nat
  name : String
  price : ℚ
  quantity : Nat
deriving DecidableEq, Repr

/-- An order record (`DbOrder`, supabaseClient.ts lines 410-437), with the
fields the verified components read and write. -/
structure Order where
  id : Nat
  status : OrderStatus
  paymentMethod : PaymentMethod
  paymentStatus : PaymentStatus
  deliveryType : DeliveryType
  items : List OrderItem
  total : ℚ
  assignedDriver : Option Nat
  deliveryDepartedAt : Option Int
  estimatedDeliveryTime : Option Int
  createdAt : Int
  updatedAt : Int
deriving DecidableEq, Repr

/-- A driver record (`DbDriver`, supabaseClient.ts lines 812-820). -/
structure Driver where
  id : Nat
  name : String
  phone : String
  status : DriverStatus
  activeDeliveries : Nat
  updatedAt : Int
deriving DecidableEq, Repr

/-- Terminal statuses per the spec glossary: `completed` or `cancelled`. -/
def isTerminal (s : OrderStatus) : Bool :=
  s == .completed || s == .cancelled

/-- `ordersService.updateStatus` (supabaseClient.ts lines 533-543): sets the
requested status unconditionally and bumps `updated_at`. -/
def ordersUpdateStatus (o : Order) (s : OrderStatus) (now : Int) : Order :=
  { o with status := s, updatedAt := now }

/-- `ordersService.assignDriver` (supabaseClient.ts lines 571-584): sets
`assigned_driver_id` (possibly to null) and bumps `updated_at`; no other
field, in particular not the status, is touched. -/
def ordersAssignDriver (o : Order) (driverId : Option Nat) (now : Int) : Order :=
  { o with assignedDriver := driverId, updatedAt := now }

/-- `ordersService.startDelivery` (supabaseClient.ts lines 587-605): sets
`status = delivery`, `delivery_departed_at = now`,
`estimated_delivery_time = now + estimatedMinutes * 60000` milliseconds,
and bumps `updated_at`. -/
def ordersStartDelivery (o : Order) (estimatedMinutes : Int) (now : Int) : Order :=
  { o with status := .delivery,
           deliveryDepartedAt := some now,
           estimatedDeliveryTime := some (now + estimatedMinutes * 60000),
           updatedAt := now }

/-- Comparison used by `ordersService.getAll` (supabaseClient.ts lines
440-453): `.order createdAt descending`, newest first. -/
def createdDesc (a b : Order) : Prop :=
  b.createdAt ≤ a.createdAt

instance : DecidableRel createdDesc := fun a b =>
  inferInstanceAs (Decidable (b.createdAt ≤ a.createdAt))

instance : IsTotal Order createdDesc :=
  ⟨fun a b => le_total b.createdAt a.createdAt⟩

instance : IsTrans Order createdDesc :=
  ⟨fun _ _ _ h1 h2 => le_trans h2 h1⟩

/-- `ordersService.getAll` (supabaseClient.ts lines 440-453): returns the
stored orders sorted by `created_at` in descending direction
(`ascending: false`). -/
def ordersGetAll (db : List Order) : List Order :=
  List.insertionSort createdDesc db

/-- `driversService.updateStatus` (supabaseClient.ts lines 878-888): sets the
given status directly and bumps `updated_at`. -/
def driversUpdateStatus (d : Driver) (s : DriverStatus) (now : Int) : Driver :=
  { d with status := s, updatedAt := now }

/-- `driversService.updateActiveDeliveries` (supabaseClient.ts lines
891-905): stores the new count and re-derives the status as
`count > 0 ? busy : available`. -/
def driversUpdateActiveDeliveries (d : Driver) (count : Nat) (now : Int) : Driver :=
  { d with activeDeliveries := count,
           status := if count > 0 then .busy else .available,
           updatedAt := now }

/-- Midnight at the start of the calendar day (UTC) containing instant `t`,
as done by `startDate.setHours(0, 0, 0, 0)` in the dashboard stats
(part_000 line 883). -/
def floorToDay (t : Int) : Int :=
  86400000 * (t.ediv 86400000)

/-- The last millisecond of the calendar day containing `t`, as done by
`endDate.setHours(23, 59, 59, 999)` (part_000 line 884). -/
def endOfDay (t : Int) : Int :=
  floorToDay t + 86399999

/-- Payment-acceptance filter of the dashboard stats (part_000 lines
887-889): an order is accepted when `payment.status == paid` or
`payment.method == cash`. -/
def paidOrders (orders : List Order) : List Order :=
  orders.filter fun o => o.paymentStatus == .paid || o.paymentMethod == .cash

/-- Eligible set of the Analytics Aggregator (part_000 lines 891-895): the
accepted orders that are `completed` and, when both ends of the custom date
range are set, whose `createdAt` lies between the range start normalized to
00:00:00 and the range end normalized to 23:59:59.999. -/
def filteredOrders (orders : List Order) (rangeStart rangeEnd : Option Int) :
    List Order :=
  (paidOrders orders).filter fun o =>
    match rangeStart, rangeEnd with
    | some s, some e =>
        o.status == .completed
          && decide (floorToDay s ≤ o.createdAt)
          && decide (o.createdAt ≤ endOfDay e)
    | _, _ => o.status == .completed

/-- `revenue` (part_000 line 897): sum of `total` over the eligible set. -/
def revenue (orders : List Order) (rangeStart rangeEnd : Option Int) : ℚ :=
  (filteredOrders orders rangeStart rangeEnd).foldl (fun acc o => acc + o.total) 0

/-- `orderCount` (part_000 line 898): size of the eligible set. -/
def orderCount (orders : List Order) (rangeStart rangeEnd : Option Int) : Nat :=
  (filteredOrders orders rangeStart rangeEnd).length

/-- `avgOrderValue` (part_000 line 899): `revenue / orderCount`, `0` when the
eligible set is empty. -/
def avgOrderValue (orders : List Order) (rangeStart rangeEnd : Option Int) : ℚ :=
  if orderCount orders rangeStart rangeEnd > 0 then
    revenue orders rangeStart rangeEnd / (orderCount orders rangeStart rangeEnd : ℚ)
  else 0

/-- `btwAmount` (part_000 line 916): the inclusive-VAT share
`revenue * (9 / 109)`. -/
def btwAmount (orders : List Order) (rangeStart rangeEnd : Option Int) : ℚ :=
  revenue orders rangeStart rangeEnd * (9 / 109)

/-- `netRevenue` (part_000 line 917): `revenue - btwAmount`. -/
def netRevenue (orders : List Order) (rangeStart rangeEnd : Option Int) : ℚ :=
  revenue orders rangeStart rangeEnd - btwAmount orders rangeStart rangeEnd

/-- Receipt-preview net line (part_000 line 3790): `total * 0.91`. -/
def receiptSubtotalExclBtw (total : ℚ) : ℚ :=
  total * (91 / 100)

/-- Receipt-preview BTW line (part_000 line 3793): `total * 0.09`. -/
def receiptBtw (total : ℚ) : ℚ :=
  total * (9 / 100)

/-- The Analytics Aggregator inclusive-VAT formula (part_000 line 916)
applied to a single amount: `amount * (9 / 109)`. -/
def analyticsBtwOf (amount : ℚ) : ℚ :=
  amount * (9 / 109)

/-- The Analytics Aggregator net amount (part_000 line 917) applied to a
single amount: `amount - amount * (9 / 109)`. -/
def analyticsNetOf (amount : ℚ) : ℚ :=
  amount - analyticsBtwOf amount

/-- One observation of the Intake Monitor (part_000 lines 836-873): when the
current order count exceeds the retained previous count, one notification
fires for `orders[orders.length - 1]`; otherwise none fires. The retained
count becomes the current length either way. Returns the list of orders a
notification fired for, paired with the new retained count. -/
def monitorStep (prevCount : Nat) (orders : List Order) : List Order × Nat :=
  if prevCount < orders.length then
    match orders.getLast? with
    | some newOrder => ([newOrder], orders.length)
    | none => ([], orders.length)
  else
    ([], orders.length)

/-- `performActualPrint` (part_000 lines 1327-1336): after the print job,
orders that are not already `completed` or `cancelled` are forced to
`completed` via the status update; terminal orders are left untouched. -/
def performActualPrint (o : Order) (now : Int) : Order :=
  if o.status ≠ .completed ∧ o.status ≠ .cancelled then
    ordersUpdateStatus o .completed now
  else o

/-- Status-update buttons rendered in the order detail panel (part_000 lines
1561-1612): no buttons for terminal orders; `pending` offers `preparing`;
`preparing` offers `delivery` (via the delivery modal) for delivery orders
and `ready` for pickup orders; `ready` and `delivery` offer `completed`. -/
def statusUpdateButtons (o : Order) : List OrderStatus :=
  if o.status ≠ .completed ∧ o.status ≠ .cancelled then
    (if o.status = .pending then [.preparing] else [])
      ++ (if o.status = .preparing then
            (if o.deliveryType = .delivery then [.delivery] else [.ready])
          else [])
      ++ (if o.status = .ready ∨ o.status = .delivery then [.completed] else [])
  else []

/-- Errors of the lifecycle engine (spec section 7). -/
inductive LifecycleError
  | invalidTransition
  | validationError
deriving DecidableEq, Repr

/-- Transition graph of spec section 4.1:
`pending → preparing → (ready | delivery) → completed`, branching on the
delivery type out of `preparing`, plus `cancelled` from any non-terminal
state; nothing leaves a terminal state. -/
def allowedTransition (o : Order) (target : OrderStatus) : Bool :=
  match o.status, target with
  | .pending, .preparing => true
  | .preparing, .ready => o.deliveryType == .pickup
  | .preparing, .delivery => o.deliveryType == .delivery
  | .ready, .completed => true
  | .delivery, .completed => true
  | s, .cancelled => !isTerminal s
  | _, _ => false

/-- Modelled from the spec: the `updateOrderStatus` provider of
`OrdersContext` lives in `index.tsx`, which is not under `src/`. Per spec
section 4.1, `applyTransition(order, targetStatus)` fails with
`InvalidTransition` when the target is not reachable from the current
status along the graph, or when the current status is already terminal;
on success it applies the store status update (`ordersUpdateStatus`). -/
def applyTransition (o : Order) (target : OrderStatus) (now : Int) :
    Except LifecycleError Order :=
  if allowedTransition o target then
    .ok (ordersUpdateStatus o target now)
  else
    .error .invalidTransition

/-- Modelled from the spec: the `startDelivery` provider of `OrdersContext`
lives in `index.tsx`, which is not under `src/`. Per spec section 4.2 it is
valid only when `order.status == preparing` and `delivery.type == delivery`
(otherwise `InvalidTransition`), `estimatedMinutes` must be a positive
integer (otherwise `ValidationError`); on success it applies the store
update `ordersStartDelivery`. -/
def dispatchStartDelivery (o : Order) (estimatedMinutes : Int) (now : Int) :
    Except LifecycleError Order :=
  if o.status = .preparing ∧ o.deliveryType = .delivery then
    if 0 < estimatedMinutes then
      .ok (ordersStartDelivery o estimatedMinutes now)
    else
      .error .validationError
  else
    .error .invalidTransition

/-- Applies `f` to the active-delivery count of the driver with the given id
through the store update `driversUpdateActiveDeliveries`; other drivers are
untouched. -/
def adjustDriver (drivers : List Driver) (driverId : Nat) (f : Nat → Nat)
    (now : Int) : List Driver :=
  drivers.map fun d =>
    if d.id = driverId then driversUpdateActiveDeliveries d (f d.activeDeliveries) now
    else d

/-- Modelled from the spec: the `assignDriver` provider of `OrdersContext`
lives in `index.tsx`, which is not under `src/`. Per spec section 4.2,
assigning a driver increments that driver's `activeDeliveries`, reassigning
decrements the previous driver's count and increments the new one's, and
passing null unassigns and decrements; every count change goes through the
store update `driversUpdateActiveDeliveries`, and the order record itself
is updated through the store call `ordersAssignDriver`, which does not
change its status. -/
def dispatchAssignDriver (o : Order) (newDriver : Option Nat)
    (drivers : List Driver) (now : Int) : Order × List Driver :=
  let afterDec :=
    match o.assignedDriver with
    | some p => adjustDriver drivers p (fun n => n - 1) now
    | none => drivers
  let afterInc :=
    match newDriver with
    | some q => adjustDriver afterDec q (fun n => n + 1) now
    | none => afterDec
  (ordersAssignDriver o newDriver now, afterInc)

/-- Total active deliveries across a driver list. -/
def totalActive (drivers : List Driver) : Nat :=
  (drivers.map Driver.activeDeliveries).sum

/-- How many active-delivery units a single order accounts for: one while a
driver is assigned to it, zero otherwise. -/
def assignedLoad (o : Order) : Nat :=
  if o.assignedDriver.isSome then 1 else 0

/-- A concrete order in the given status, used by concrete witnesses. -/
def exOrder (st : OrderStatus) : Order :=
  { id := 1
  , status := st
  , paymentMethod := .cash
  , paymentStatus := .paid
  , deliveryType := .delivery
  , items := []
  , total := 10
  , assignedDriver := none
  , deliveryDepartedAt := none
  , estimatedDeliveryTime := none
  , createdAt := 0
  , updatedAt := 0 }

/-- A concrete completed, paid order with total 109. -/
def exOrder109 : Order :=
  { exOrder .completed with total := 109 }

/-- Claim C5: The Analytics Aggregator computes the inclusive-VAT split as
`tax = revenue * 9/109` and `netRevenue = revenue - tax`; for a revenue of
109 this yields a tax of exactly 9 and a net revenue of exactly 100, which
is not what the exclusive formula `revenue * 0.09` would give. -/
theorem btw_split_inclusive (orders : List Order) (s e : Option Int)
    (h : revenue orders s e = 109) :
    btwAmount orders s e = revenue orders s e * (9 / 109)
    ∧ netRevenue orders s e = revenue orders s e - btwAmount orders s e
    ∧ btwAmount orders s e = 9
    ∧ netRevenue orders s e = 100
    ∧ btwAmount orders s e ≠ revenue orders s e * (9 / 100) := by
  refine ⟨rfl, rfl, ?_, ?_, ?_⟩
  · rw [btwAmount, h]; norm_num
  · rw [netRevenue, btwAmount, h]; norm_num
  · rw [btwAmount, h]; norm_num

/-- Witness for `btw_split_inclusive` at the one-order collection whose
revenue is 109. -/
theorem btw_split_inclusive_witness :
    revenue [exOrder109] none none = 109
    ∧ btwAmount [exOrder109] none none = 9
    ∧ netRevenue [exOrder109] none none = 100 := by
  have h : revenue [exOrder109] none none = 109 := by
    simp [revenue, filteredOrders, paidOrders, exOrder109, exOrder]
  exact ⟨h, (btw_split_inclusive [exOrder109] none none h).2.2.1,
    (btw_split_inclusive [exOrder109] none none h).2.2.2.1⟩

/-- Claim C10: The receipt preview computes BTW as `total * 0.09` and the net
subtotal as `total * 0.91`; the Analytics Aggregator splits the same amount
as `total * 9/109` tax and `total * 100/109` net. For every positive total
the two computations disagree on both lines. -/
theorem receipt_vs_analytics_vat (t : ℚ) (ht : 0 < t) :
    receiptBtw t ≠ analyticsBtwOf t
    ∧ receiptSubtotalExclBtw t ≠ analyticsNetOf t := by
  constructor
  · intro h
    rw [receiptBtw, analyticsBtwOf] at h
    have h2 := mul_left_cancel₀ (ne_of_gt ht) h
    norm_num at h2
  · intro h
    rw [receiptSubtotalExclBtw, analyticsNetOf, analyticsBtwOf] at h
    have h1 : t * (91 / 100) = t * (100 / 109) := by linear_combination h
    have h2 := mul_left_cancel₀ (ne_of_gt ht) h1
    norm_num at h2

/-- Witness for `receipt_vs_analytics_vat` at total 109: the receipt prints
9.81 BTW and 99.19 net while the aggregator would split 9 and 100. -/
theorem receipt_vs_analytics_vat_witness :
    (0 : ℚ) < 109
    ∧ (receiptBtw 109 ≠ analyticsBtwOf 109
       ∧ receiptSubtotalExclBtw 109 ≠ analyticsNetOf 109) :=
  ⟨by norm_num, receipt_vs_analytics_vat 109 (by norm_num)⟩

/-- Claim C7: The "mark order printed" action forces the status to `completed`
exactly when the order is not already terminal: a non-terminal order comes
out `completed`, and a `completed` or `cancelled` order is returned
entirely unchanged. -/
theorem print_forces_completed (o : Order) (now : Int) :
    (o.status ≠ .completed ∧ o.status ≠ .cancelled →
       (performActualPrint o now).status = .completed)
    ∧ (o.status = .completed ∨ o.status = .cancelled →
       performActualPrint o now = o) := by
  constructor
  · intro h
    rw [performActualPrint, if_pos h]
    rfl
  · intro h
    have hn : ¬(o.status ≠ .completed ∧ o.status ≠ .cancelled) := by
      rcases h with h | h <;> simp [h]
    rw [performActualPrint, if_neg hn]

/-- Witness for `print_forces_completed`: printing a pending order completes
it, and a cancelled order survives printing unchanged. -/
theorem print_forces_completed_witness :
    ((exOrder .pending).status ≠ .completed ∧ (exOrder .pending).status ≠ .cancelled)
    ∧ (performActualPrint (exOrder .pending) 42).status = .completed
    ∧ performActualPrint (exOrder .cancelled) 42 = exOrder .cancelled :=
  ⟨by decide, (print_forces_completed (exOrder .pending) 42).1 (by decide),
    (print_forces_completed (exOrder .cancelled) 42).2 (Or.inr rfl)⟩

/-- A concrete driver that an operator has overridden to `offline`. -/
def exOfflineDriver : Driver :=
  { id := 7, name := "D", phone := "333", status := .offline
  , activeDeliveries := 0, updatedAt := 0 }

/-- Claim C9, counterexample: A load-driven update does not preserve an explicit
`offline` override: assigning one delivery to an offline driver through
`driversService.updateActiveDeliveries` silently replaces `offline` with
`busy`, so the claimed persistence of the override is false. -/
theorem offline_override_not_preserved :
    exOfflineDriver.status = .offline
    ∧ (driversUpdateActiveDeliveries exOfflineDriver 1 0).status = .busy
    ∧ (driversUpdateActiveDeliveries exOfflineDriver 1 0).status ≠ .offline := by
  decide

/-- Claim C9, amended: Every load-driven update re-derives the driver status
purely from the new count — `busy` exactly when the count is positive,
`available` otherwise, never `offline` — overwriting any explicit offline
override; the operator-facing `updateStatus` sets the status field directly
and leaves the count untouched. -/
theorem load_update_rederives_status (d : Driver) (c : Nat) (now : Int)
    (s : DriverStatus) :
    ((driversUpdateActiveDeliveries d c now).status = .busy ↔ 0 < c)
    ∧ (driversUpdateActiveDeliveries d c now).status ≠ .offline
    ∧ (driversUpdateActiveDeliveries d c now).activeDeliveries = c
    ∧ (driversUpdateStatus d s now).status = s
    ∧ (driversUpdateStatus d s now).activeDeliveries = d.activeDeliveries := by
  rw [driversUpdateActiveDeliveries, driversUpdateStatus]
  by_cases hc : c > 0 <;> simp [hc]

/-- Witness for `load_update_rederives_status` at the concrete offline
driver receiving two deliveries. -/
theorem load_update_rederives_status_witness :
    ((driversUpdateActiveDeliveries exOfflineDriver 2 0).status = .busy ↔ 0 < 2)
    ∧ (driversUpdateActiveDeliveries exOfflineDriver 2 0).status ≠ .offline
    ∧ (driversUpdateActiveDeliveries exOfflineDriver 2 0).activeDeliveries = 2
    ∧ (driversUpdateStatus exOfflineDriver .available 0).status = .available
    ∧ (driversUpdateStatus exOfflineDriver .available 0).activeDeliveries
        = exOfflineDriver.activeDeliveries :=
  load_update_rederives_status exOfflineDriver 2 0 .available

/-- Claim C1: From a terminal status (`completed` or `cancelled`) no transition
is accepted: `applyTransition` rejects every target with
`InvalidTransition` — returning an error and hence leaving the stored order
untouched — and the dashboard renders no status-update button at all, so in
particular `completed → preparing` cannot happen. -/
theorem terminal_rejects_transitions (o : Order) (target : OrderStatus)
    (now : Int) (h : isTerminal o.status = true) :
    applyTransition o target now = .error .invalidTransition
    ∧ statusUpdateButtons o = [] := by
  have hst : o.status = .completed ∨ o.status = .cancelled := by
    rw [isTerminal, Bool.or_eq_true, beq_iff_eq, beq_iff_eq] at h
    exact h
  constructor
  · rcases hst with h1 | h1 <;> cases target <;>
      simp [applyTransition, allowedTransition, isTerminal, h1]
  · rcases hst with h1 | h1 <;> simp [statusUpdateButtons, h1]

/-- Witness for `terminal_rejects_transitions`: the completed order rejects
the attempted `completed → preparing` transition. -/
theorem terminal_rejects_transitions_witness :
    isTerminal (exOrder .completed).status = true
    ∧ (applyTransition (exOrder .completed) .preparing 3
         = .error .invalidTransition
       ∧ statusUpdateButtons (exOrder .completed) = []) :=
  ⟨by decide, terminal_rejects_transitions (exOrder .completed) .preparing 3 (by decide)⟩

/-- Claim C2: `startDelivery` succeeds exactly when the order is `preparing`,
its delivery type is `delivery` and the estimated minutes are positive; on
success the order departs now, is estimated to arrive `estimatedMinutes`
minutes (in milliseconds) after departure, and moves to status
`delivery`. -/
theorem startDelivery_contract (o : Order) (m now : Int) :
    ((∃ r, dispatchStartDelivery o m now = .ok r) ↔
       o.status = .preparing ∧ o.deliveryType = .delivery ∧ 0 < m)
    ∧ (∀ r, dispatchStartDelivery o m now = .ok r →
        r.status = .delivery
        ∧ r.deliveryDepartedAt = some now
        ∧ r.estimatedDeliveryTime = some (now + m * 60000)
        ∧ ∀ dep, r.deliveryDepartedAt = some dep →
            r.estimatedDeliveryTime = some (dep + m * 60000)) := by
  rw [dispatchStartDelivery]
  by_cases h1 : o.status = .preparing ∧ o.deliveryType = .delivery
  · rw [if_pos h1]
    by_cases h2 : 0 < m
    · rw [if_pos h2]
      constructor
      · simp [h1, h2]
      · intro r hr
        rw [Except.ok.injEq] at hr
        subst hr
        refine ⟨rfl, rfl, rfl, ?_⟩
        intro dep hdep
        rw [ordersStartDelivery] at hdep ⊢
        simp only [Option.some.injEq] at hdep
        rw [hdep]
    · rw [if_neg h2]
      constructor
      · constructor
        · rintro ⟨r, hr⟩; exact absurd hr (by simp)
        · rintro ⟨_, _, hm⟩; exact absurd hm h2
      · intro r hr; exact absurd hr (by simp)
  · rw [if_neg h1]
    constructor
    · constructor
      · rintro ⟨r, hr⟩; exact absurd hr (by simp)
      · rintro ⟨ha, hb, _⟩; exact absurd ⟨ha, hb⟩ h1
    · intro r hr; exact absurd hr (by simp)

/-- Witness for `startDelivery_contract`: starting delivery of a preparing
delivery order with 30 minutes succeeds and estimates arrival 30 minutes
(1800000 milliseconds) after the departure instant. -/
theorem startDelivery_contract_witness :
    dispatchStartDelivery (exOrder .preparing) 30 1000
      = .ok (ordersStartDelivery (exOrder .preparing) 30 1000)
    ∧ (ordersStartDelivery (exOrder .preparing) 30 1000).deliveryDepartedAt
        = some 1000
    ∧ (ordersStartDelivery (exOrder .preparing) 30 1000).estimatedDeliveryTime
        = some (1000 + 30 * 60000) :=
  ⟨by rw [dispatchStartDelivery, if_pos ⟨rfl, rfl⟩, if_pos (by norm_num)],
    ((startDelivery_contract (exOrder .preparing) 30 1000).2 _
      (by rw [dispatchStartDelivery, if_pos ⟨rfl, rfl⟩, if_pos (by norm_num)])).2.1,
    ((startDelivery_contract (exOrder .preparing) 30 1000).2 _
      (by rw [dispatchStartDelivery, if_pos ⟨rfl, rfl⟩, if_pos (by norm_num)])).2.2.1⟩

/-- Claim C6: One intake observation retains only the order count: when the
current collection is longer than the previously retained count — by one,
two, or any amount — exactly one notification fires and it is for the last
element of the collection; when the length stays equal or shrinks, none
fires. The retained count becomes the current length in all cases. -/
theorem monitor_step_contract (prev : Nat) (orders : List Order) :
    (orders.length ≤ prev → (monitorStep prev orders).1 = [])
    ∧ (prev < orders.length →
        (monitorStep prev orders).1.length = 1
        ∧ (monitorStep prev orders).1.head? = orders.getLast?)
    ∧ (monitorStep prev orders).2 = orders.length := by
  refine ⟨?_, ?_, ?_⟩
  · intro h
    rw [monitorStep, if_neg (by omega)]
  · intro h
    rw [monitorStep, if_pos h]
    rcases hgl : orders.getLast? with _ | x
    · rw [List.getLast?_eq_none_iff] at hgl
      subst hgl
      simp at h
    · simp
  · rw [monitorStep]
    by_cases h : prev < orders.length
    · rw [if_pos h]
      rcases orders.getLast? with _ | x <;> rfl
    · rw [if_neg h]

/-- Witness for `monitor_step_contract`: the count jumps from 1 to 3 (two
orders arrived between observations) yet exactly one notification fires,
and it is for the last element of the collection. -/
theorem monitor_step_contract_witness :
    1 < ([exOrder .pending, exOrder .preparing, exOrder .ready] : List Order).length
    ∧ ((monitorStep 1 [exOrder .pending, exOrder .preparing, exOrder .ready]).1.length = 1
       ∧ (monitorStep 1 [exOrder .pending, exOrder .preparing, exOrder .ready]).1.head?
           = ([exOrder .pending, exOrder .preparing, exOrder .ready] : List Order).getLast?) :=
  ⟨by decide,
    (monitor_step_contract 1 [exOrder .pending, exOrder .preparing, exOrder .ready]).2.1
      (by decide)⟩

/-- The older of the two concrete orders used against C8. -/
def exOlder : Order :=
  { exOrder .completed with id := 21, createdAt := 1000 }

/-- The newer of the two concrete orders used against C8. -/
def exNewer : Order :=
  { exOrder .completed with id := 22, createdAt := 2000 }

/-- Claim C8, counterexample: `ordersService.getAll` sorts by `created_at`
descending, so the most recently created order is *not* the last element of
the returned sequence: on a two-order store the last element is the older
order. -/
theorem getAll_newest_last_false :
    exNewer ∈ [exOlder, exNewer]
    ∧ (∀ o ∈ [exOlder, exNewer], o.createdAt ≤ exNewer.createdAt)
    ∧ (ordersGetAll [exOlder, exNewer]).getLast? ≠ some exNewer
    ∧ (ordersGetAll [exOlder, exNewer]).getLast? = some exOlder := by
  decide

/-- Claim C8, amended: `ordersService.getAll` returns the order collection
sorted newest-first (descending by creation time) — the head, not the last
element, is the most recently created order — and the result is a
permutation of the stored collection. -/
theorem getAll_sorted_newest_first (db : List Order) :
    List.Sorted createdDesc (ordersGetAll db)
    ∧ (ordersGetAll db).Perm db :=
  ⟨List.sorted_insertionSort createdDesc db, List.perm_insertionSort createdDesc db⟩

/-- Witness for `getAll_sorted_newest_first` on the concrete two-order
store. -/
theorem getAll_sorted_newest_first_witness :
    List.Sorted createdDesc (ordersGetAll [exOlder, exNewer])
    ∧ (ordersGetAll [exOlder, exNewer]).Perm [exOlder, exNewer] :=
  getAll_sorted_newest_first [exOlder, exNewer]

/-- Folding order totals onto an accumulator adds the sum of the totals. -/
lemma foldl_total_eq_sum (l : List Order) (a : ℚ) :
    l.foldl (fun acc o => acc + o.total) a = a + (l.map Order.total).sum := by
  induction l generalizing a with
  | nil => simp
  | cons x t ih => simp [ih, add_assoc]

/-- Claim C4: An order is counted by the Analytics Aggregator exactly when it
is accepted (`payment.status == paid` or `payment.method == cash`), is
`completed`, and — when both ends of the date range are set — was created
between the start day's first and the end day's last instant; with an
incomplete range only `completed` is additionally required. The revenue is
the sum of `total` over this eligible set, `orderCount` is its size, and
`avgOrderValue` is `revenue / orderCount`, defaulting to 0 on an empty
eligible set. -/
theorem analytics_eligibility (orders : List Order) (s e : Option Int)
    (o : Order) :
    (o ∈ filteredOrders orders s e ↔
       o ∈ orders
       ∧ (o.paymentStatus = .paid ∨ o.paymentMethod = .cash)
       ∧ o.status = .completed
       ∧ ∀ sv ev, s = some sv → e = some ev →
           floorToDay sv ≤ o.createdAt ∧ o.createdAt ≤ endOfDay ev)
    ∧ revenue orders s e = ((filteredOrders orders s e).map Order.total).sum
    ∧ orderCount orders s e = (filteredOrders orders s e).length
    ∧ (filteredOrders orders s e = [] → avgOrderValue orders s e = 0)
    ∧ (filteredOrders orders s e ≠ [] →
        avgOrderValue orders s e
          = revenue orders s e / (orderCount orders s e : ℚ)) := by
  refine ⟨?_, ?_, rfl, ?_, ?_⟩
  · rw [filteredOrders, paidOrders]
    rcases s with _ | sv <;> rcases e with _ | ev <;>
      simp [List.mem_filter, and_assoc] <;> tauto
  · rw [revenue, foldl_total_eq_sum, zero_add]
  · intro h
    rw [avgOrderValue, orderCount, h]
    simp
  · intro h
    rw [avgOrderValue, if_pos]
    rw [orderCount]
    exact List.length_pos.mpr h

/-- Witness for `analytics_eligibility`: with no date range set, the
concrete paid completed order is in the eligible set of its singleton
collection. -/
theorem analytics_eligibility_witness :
    exOrder109 ∈ filteredOrders [exOrder109] none none :=
  (analytics_eligibility [exOrder109] none none exOrder109).1.mpr
    ⟨List.mem_singleton.mpr rfl, Or.inl rfl, rfl, fun _ _ hs _ => nomatch hs⟩

/-- Unfolding equation of `adjustDriver` on a cons cell. -/
lemma adjustDriver_cons (d : Driver) (t : List Driver) (q : Nat)
    (f : Nat → Nat) (now : Int) :
    adjustDriver (d :: t) q f now
      = (if d.id = q then
           driversUpdateActiveDeliveries d (f d.activeDeliveries) now
         else d) :: adjustDriver t q f now := rfl

/-- Adjusting a count never changes any driver id. -/
lemma adjustDriver_map_id (ds : List Driver) (q : Nat) (f : Nat → Nat)
    (now : Int) :
    (adjustDriver ds q f now).map Driver.id = ds.map Driver.id := by
  rw [adjustDriver, List.map_map]
  apply List.map_congr_left
  intro d _
  simp only [Function.comp_apply]
  by_cases h : d.id = q <;> simp [h, driversUpdateActiveDeliveries]

/-- Adjusting a count for an id that is not in the registry is a no-op. -/
lemma adjustDriver_not_mem (ds : List Driver) (q : Nat) (f : Nat → Nat)
    (now : Int) (h : q ∉ ds.map Driver.id) :
    adjustDriver ds q f now = ds := by
  rw [adjustDriver]
  have he : ∀ d ∈ ds,
      (if d.id = q then
         driversUpdateActiveDeliveries d (f d.activeDeliveries) now
       else d) = d := by
    intro d hd
    rw [if_neg]
    intro hid
    exact h (hid ▸ List.mem_map_of_mem Driver.id hd)
  exact (List.map_congr_left he).trans (List.map_id ds)

/-- The adjusted record of a registered driver is in the adjusted registry. -/
lemma adjustDriver_mem (ds : List Driver) (q : Nat) (f : Nat → Nat)
    (now : Int) {d : Driver} (hd : d ∈ ds) :
    (if d.id = q then
       driversUpdateActiveDeliveries d (f d.activeDeliveries) now
     else d) ∈ adjustDriver ds q f now := by
  rw [adjustDriver]
  exact List.mem_map_of_mem _ hd

/-- Unfolding equation of `totalActive` on a cons cell. -/
lemma totalActive_cons (d : Driver) (t : List Driver) :
    totalActive (d :: t) = d.activeDeliveries + totalActive t := by
  simp [totalActive]

/-- Incrementing the count of one registered driver (ids distinct) raises the
registry-wide total by exactly one. -/
lemma totalActive_adjust_inc (ds : List Driver) (q : Nat) (now : Int)
    (hn : (ds.map Driver.id).Nodup) (hq : q ∈ ds.map Driver.id) :
    totalActive (adjustDriver ds q (fun n => n + 1) now) = totalActive ds + 1 := by
  induction ds with
  | nil => simp at hq
  | cons d t ih =>
    rw [List.map_cons, List.nodup_cons] at hn
    rw [List.map_cons, List.mem_cons] at hq
    by_cases h : d.id = q
    · have ht : q ∉ t.map Driver.id := h ▸ hn.1
      rw [adjustDriver_cons, if_pos h, adjustDriver_not_mem t q _ now ht,
        totalActive_cons, totalActive_cons]
      simp [driversUpdateActiveDeliveries]
      omega
    · have hq2 : q ∈ t.map Driver.id := by
        rcases hq with h1 | h1
        · exact absurd h1.symm h
        · exact h1
      rw [adjustDriver_cons, if_neg h, totalActive_cons, totalActive_cons,
        ih hn.2 hq2]
      omega

/-- Decrementing the positive count of one registered driver (ids distinct)
lowers the registry-wide total by exactly one. -/
lemma totalActive_adjust_dec (ds : List Driver) (q : Nat) (now : Int)
    (hn : (ds.map Driver.id).Nodup)
    (hpos : ∃ d ∈ ds, d.id = q ∧ 0 < d.activeDeliveries) :
    totalActive (adjustDriver ds q (fun n => n - 1) now) + 1 = totalActive ds := by
  induction ds with
  | nil => obtain ⟨d, hd, _⟩ := hpos; simp at hd
  | cons d t ih =>
    rw [List.map_cons, List.nodup_cons] at hn
    by_cases h : d.id = q
    · have ht : q ∉ t.map Driver.id := h ▸ hn.1
      have hc : 0 < d.activeDeliveries := by
        obtain ⟨d0, hd0, hid0, hc0⟩ := hpos
        rcases List.mem_cons.mp hd0 with rfl | hmem
        · exact hc0
        · exact absurd (hid0 ▸ List.mem_map_of_mem Driver.id hmem) ht
      rw [adjustDriver_cons, if_pos h, adjustDriver_not_mem t q _ now ht,
        totalActive_cons, totalActive_cons]
      simp [driversUpdateActiveDeliveries]
      omega
    · have hpos2 : ∃ d0 ∈ t, d0.id = q ∧ 0 < d0.activeDeliveries := by
        obtain ⟨d0, hd0, hid0, hc0⟩ := hpos
        rcases List.mem_cons.mp hd0 with rfl | hmem
        · exact absurd hid0 h
        · exact ⟨d0, hmem, hid0, hc0⟩
      rw [adjustDriver_cons, if_neg h, totalActive_cons, totalActive_cons,
        ← ih hn.2 hpos2]
      omega

/-- Claim C3: `assignDriver` keeps the driver bookkeeping consistent without
touching the order status: the order's status survives unchanged and its
`assignedDriver` becomes the requested value; per driver, the new count is
the old count minus one when that driver was assigned to this order, plus
one when it becomes assigned (so reassignment moves exactly one unit and
null unassigns); and registry-wide, the total active-delivery count changes
exactly by this order's load difference, whose value after the call is at
most 1 — so a single order never accounts for more than one unit across
all drivers. -/
theorem assignDriver_bookkeeping (o : Order) (nd : Option Nat)
    (ds : List Driver) (now : Int)
    (hnodup : (ds.map Driver.id).Nodup)
    (hprev : o.assignedDriver = none ∨
       ∃ d ∈ ds, some d.id = o.assignedDriver ∧ 0 < d.activeDeliveries)
    (hnew : nd = none ∨ ∃ d ∈ ds, some d.id = nd) :
    (dispatchAssignDriver o nd ds now).1.status = o.status
    ∧ (dispatchAssignDriver o nd ds now).1.assignedDriver = nd
    ∧ totalActive (dispatchAssignDriver o nd ds now).2 + assignedLoad o
        = totalActive ds + assignedLoad (dispatchAssignDriver o nd ds now).1
    ∧ assignedLoad (dispatchAssignDriver o nd ds now).1 ≤ 1
    ∧ ∀ d ∈ ds, ∃ d2 ∈ (dispatchAssignDriver o nd ds now).2,
        d2.id = d.id
        ∧ d2.activeDeliveries
            = d.activeDeliveries
                - (if o.assignedDriver = some d.id then 1 else 0)
                + (if nd = some d.id then 1 else 0) := by
  rcases nd with _ | q <;> rcases hoa : o.assignedDriver with _ | p <;>
    rw [hoa] at hprev <;>
    simp only [dispatchAssignDriver, hoa]
  · -- unassign request on an unassigned order
    refine ⟨rfl, rfl, ?_, ?_, ?_⟩
    · simp [assignedLoad, hoa, ordersAssignDriver]
    · simp [assignedLoad, ordersAssignDriver]
    · intro d hd
      exact ⟨d, hd, rfl, by simp⟩
  · -- null request on an order assigned to driver p
    have hex : ∃ d ∈ ds, some d.id = some p ∧ 0 < d.activeDeliveries := by
      rcases hprev with h | h
      · exact absurd h (by simp)
      · exact h
    obtain ⟨d0, hd0, hid0, hc0⟩ := hex
    rw [Option.some.injEq] at hid0
    have hpos : ∃ d ∈ ds, d.id = p ∧ 0 < d.activeDeliveries :=
      ⟨d0, hd0, hid0, hc0⟩
    have hdec := totalActive_adjust_dec ds p now hnodup hpos
    refine ⟨rfl, rfl, ?_, ?_, ?_⟩
    · simp only [assignedLoad, hoa, ordersAssignDriver]
      simp
      omega
    · simp [assignedLoad, ordersAssignDriver]
    · intro d hd
      refine ⟨_, adjustDriver_mem ds p _ now hd, ?_⟩
      by_cases h : d.id = p
      · simp [h, driversUpdateActiveDeliveries]
      · have hns : ¬ (p = d.id) := fun he => h he.symm
        simp [h, hns]
  · -- assign driver q to an unassigned order
    have hex : ∃ d ∈ ds, some d.id = some q := by
      rcases hnew with h | h
      · exact absurd h (by simp)
      · exact h
    obtain ⟨d0, hd0, hid0⟩ := hex
    rw [Option.some.injEq] at hid0
    have hq : q ∈ ds.map Driver.id := hid0 ▸ List.mem_map_of_mem Driver.id hd0
    have hinc := totalActive_adjust_inc ds q now hnodup hq
    refine ⟨rfl, rfl, ?_, ?_, ?_⟩
    · simp only [assignedLoad, hoa, ordersAssignDriver]
      simp
      omega
    · simp [assignedLoad, ordersAssignDriver]
    · intro d hd
      refine ⟨_, adjustDriver_mem ds q _ now hd, ?_⟩
      by_cases h : d.id = q
      · simp [h, driversUpdateActiveDeliveries]
      · have hns : ¬ (q = d.id) := fun he => h he.symm
        simp [h, hns]
  · -- reassign from driver p to driver q
    have hex : ∃ d ∈ ds, some d.id = some p ∧ 0 < d.activeDeliveries := by
      rcases hprev with h | h
      · exact absurd h (by simp)
      · exact h
    obtain ⟨d0, hd0, hid0, hc0⟩ := hex
    rw [Option.some.injEq] at hid0
    have hpos : ∃ d ∈ ds, d.id = p ∧ 0 < d.activeDeliveries :=
      ⟨d0, hd0, hid0, hc0⟩
    have hex2 : ∃ d ∈ ds, some d.id = some q := by
      rcases hnew with h | h
      · exact absurd h (by simp)
      · exact h
    obtain ⟨d1, hd1, hid1⟩ := hex2
    rw [Option.some.injEq] at hid1
    have hq : q ∈ ds.map Driver.id := hid1 ▸ List.mem_map_of_mem Driver.id hd1
    have hq2 : q ∈ (adjustDriver ds p (fun n => n - 1) now).map Driver.id := by
      rw [adjustDriver_map_id]; exact hq
    have hn2 : ((adjustDriver ds p (fun n => n - 1) now).map Driver.id).Nodup := by
      rw [adjustDriver_map_id]; exact hnodup
    have hdec := totalActive_adjust_dec ds p now hnodup hpos
    have hinc := totalActive_adjust_inc
      (adjustDriver ds p (fun n => n - 1) now) q now hn2 hq2
    refine ⟨rfl, rfl, ?_, ?_, ?_⟩
    · simp only [assignedLoad, hoa, ordersAssignDriver]
      simp
      omega
    · simp [assignedLoad, ordersAssignDriver]
    · intro d hd
      refine ⟨_, adjustDriver_mem (adjustDriver ds p (fun n => n - 1) now) q _ now
        (adjustDriver_mem ds p _ now hd), ?_⟩
      by_cases hp : d.id = p <;> by_cases hqd : d.id = q
      · subst hp
        subst hqd
        simp [driversUpdateActiveDeliveries]
      · subst hp
        have hnq : ¬ (q = d.id) := fun he => hqd he.symm
        simp [hqd, hnq, driversUpdateActiveDeliveries]
      · subst hqd
        have hnp : ¬ (p = d.id) := fun he => hp he.symm
        simp [hp, hnp, driversUpdateActiveDeliveries]
      · have hnp : ¬ (p = d.id) := fun he => hp he.symm
        have hnq : ¬ (q = d.id) := fun he => hqd he.symm
        simp [hp, hqd, hnp, hnq]

/-- A concrete driver currently carrying one delivery. -/
def exDriverA : Driver :=
  { id := 1, name := "A", phone := "111", status := .busy
  , activeDeliveries := 1, updatedAt := 0 }

/-- A concrete idle driver. -/
def exDriverB : Driver :=
  { id := 2, name := "B", phone := "222", status := .available
  , activeDeliveries := 0, updatedAt := 0 }

/-- A concrete delivery order assigned to the first driver. -/
def exAssignedOrder : Order :=
  { exOrder .delivery with assignedDriver := some 1 }

/-- Witness for `assignDriver_bookkeeping`: reassigning the concrete order
from the busy driver to the idle one keeps the status, and the registry
total still accounts exactly one unit to this order. -/
theorem assignDriver_bookkeeping_witness :
    (([exDriverA, exDriverB].map Driver.id).Nodup
      ∧ (exAssignedOrder.assignedDriver = none ∨
          ∃ d ∈ [exDriverA, exDriverB],
            some d.id = exAssignedOrder.assignedDriver ∧ 0 < d.activeDeliveries)
      ∧ ((some 2 : Option Nat) = none ∨
          ∃ d ∈ [exDriverA, exDriverB], some d.id = (some 2 : Option Nat)))
    ∧ (dispatchAssignDriver exAssignedOrder (some 2) [exDriverA, exDriverB] 9).1.status
        = exAssignedOrder.status
    ∧ totalActive (dispatchAssignDriver exAssignedOrder (some 2) [exDriverA, exDriverB] 9).2
        + assignedLoad exAssignedOrder
        = totalActive [exDriverA, exDriverB]
          + assignedLoad (dispatchAssignDriver exAssignedOrder (some 2) [exDriverA, exDriverB] 9).1 :=
  ⟨⟨by decide, by decide, by decide⟩,
    (assignDriver_bookkeeping exAssignedOrder (some 2) [exDriverA, exDriverB] 9
      (by decide) (by decide) (by decide)).1,
    (assignDriver_bookkeeping exAssignedOrder (some 2) [exDriverA, exDriverB] 9
      (by decide) (by decide) (by decide)).2.2.1⟩

end Irini
